import Mathlib

/-!
Verification of the ink-request-manager backend handlers.

The relational store is modelled as lists of rows (one list per table,
mirroring `db/schema.ts`), and each handler from
`handlers/ink_requests.ts`, `handlers/user_assignments.ts` is translated
into a state-passing function returning `Except HandlerError α × DBState`:
the returned state is the store after the call (unchanged when the
handler throws before any write, exactly as the sequential statements of
the source run).  Timestamps (`new Date()`) are modelled by an explicit
`now : Nat` argument; SQL `integer` columns are `Int`, serial ids `Nat`.
-/

namespace InkManager

/-- `user_role` enum from the schema. -/
inductive UserRole where
  | user
  | admin
deriving DecidableEq, Repr

/-- `request_status` enum from the schema. -/
inductive RequestStatus where
  | pending
  | approved
  | rejected
deriving DecidableEq, Repr

/-- Row of `users` table. -/
structure User where
  id : Nat
  username : String
  email : String
  password_hash : String
  role : UserRole
  created_at : Nat
  updated_at : Nat
deriving DecidableEq, Repr

/-- Row of `ink_types` table. -/
structure InkType where
  id : Nat
  name : String
  description : Option String
  unit : String
  created_at : Nat
  updated_at : Nat
deriving DecidableEq, Repr

/-- Row of `ink_stock` table. -/
structure InkStock where
  id : Nat
  ink_type_id : Nat
  current_stock : Int
  minimum_stock : Int
  updated_at : Nat
deriving DecidableEq, Repr

/-- Row of `user_ink_assignments` table. -/
structure UserInkAssignment where
  id : Nat
  user_id : Nat
  ink_type_id : Nat
  max_quantity_per_request : Int
  created_at : Nat
deriving DecidableEq, Repr

/-- Row of `ink_requests` table. -/
structure InkRequest where
  id : Nat
  user_id : Nat
  ink_type_id : Nat
  requested_quantity : Int
  approved_quantity : Option Int
  status : RequestStatus
  request_reason : Option String
  admin_notes : Option String
  reviewed_by_admin_id : Option Nat
  requested_at : Nat
  reviewed_at : Option Nat
deriving DecidableEq, Repr

/-- The relational store: one list of rows per table, plus the serial-id
counters used by inserts into `ink_requests` and `user_ink_assignments`. -/
structure DBState where
  users : List User
  ink_types : List InkType
  ink_stock : List InkStock
  user_ink_assignments : List UserInkAssignment
  ink_requests : List InkRequest
  next_request_id : Nat
  next_assignment_id : Nat
deriving DecidableEq, Repr

/-- Errors thrown by the handlers (each constructor corresponds to a
distinct `throw new Error(...)` message in the source). -/
inductive HandlerError where
  | notAssigned
  | quotaExceeded
  | requestNotFound
  | alreadyReviewed
  | noStockInfo
  | insufficientStock
  | userNotFound (userId : Nat)
  | inkTypeNotFound (inkTypeId : Nat)
  | assignmentConflict (userId inkTypeId : Nat)
  | assignmentNotFound (assignmentId : Nat)
deriving DecidableEq, Repr

/-- `z.enum(['approved', 'rejected'])` of `reviewInkRequestInputSchema`:
a review decision can never be `pending`. -/
inductive ReviewDecision where
  | approved
  | rejected
deriving DecidableEq, Repr

/-- The request status stored for a review decision. -/
def ReviewDecision.toStatus : ReviewDecision → RequestStatus
  | .approved => .approved
  | .rejected => .rejected

/-- `createInkRequestInputSchema`. -/
structure CreateInkRequestInput where
  ink_type_id : Nat
  requested_quantity : Int
  request_reason : Option String
deriving DecidableEq, Repr

/-- `reviewInkRequestInputSchema`; `approved_quantity` is `.optional()`,
so `none` models a caller who omitted the field and `some q` a caller who
supplied `q` (including `some 0`). -/
structure ReviewInkRequestInput where
  request_id : Nat
  status : ReviewDecision
  approved_quantity : Option Int
  admin_notes : Option String
deriving DecidableEq, Repr

/-- `createUserInkAssignmentInputSchema`. -/
structure CreateUserInkAssignmentInput where
  user_id : Nat
  ink_type_id : Nat
  max_quantity_per_request : Int
deriving DecidableEq, Repr

/-- `db.select().from(usersTable).where(eq(usersTable.id, uid))` followed
by taking row `[0]`. -/
def DBState.findUser (st : DBState) (uid : Nat) : Option User :=
  (st.users.filter (fun u => u.id == uid)).head?

/-- Select from `ink_types` by id, row `[0]`. -/
def DBState.findInkType (st : DBState) (tid : Nat) : Option InkType :=
  (st.ink_types.filter (fun t => t.id == tid)).head?

/-- Select from `ink_stock` by `ink_type_id`, row `[0]`. -/
def DBState.findStock (st : DBState) (tid : Nat) : Option InkStock :=
  (st.ink_stock.filter (fun s => s.ink_type_id == tid)).head?

/-- Select from `user_ink_assignments` by the (user, ink type) pair,
row `[0]`. -/
def DBState.findAssignment (st : DBState) (uid tid : Nat) :
    Option UserInkAssignment :=
  (st.user_ink_assignments.filter
    (fun a => a.user_id == uid && a.ink_type_id == tid)).head?

/-- Select from `user_ink_assignments` by id, row `[0]`. -/
def DBState.findAssignmentById (st : DBState) (aid : Nat) :
    Option UserInkAssignment :=
  (st.user_ink_assignments.filter (fun a => a.id == aid)).head?

/-- Select from `ink_requests` by id, row `[0]`. -/
def DBState.findRequest (st : DBState) (rid : Nat) : Option InkRequest :=
  (st.ink_requests.filter (fun r => r.id == rid)).head?

/-- `InkRequestWithDetails` response shape (request joined with requester
username/email, ink type name/unit, and reviewer username when set). -/
structure InkRequestWithDetails where
  id : Nat
  user_id : Nat
  user_username : String
  user_email : String
  ink_type_id : Nat
  ink_type_name : String
  ink_type_unit : String
  requested_quantity : Int
  approved_quantity : Option Int
  status : RequestStatus
  request_reason : Option String
  admin_notes : Option String
  reviewed_by_admin_id : Option Nat
  reviewed_by_admin_username : Option String
  requested_at : Nat
  reviewed_at : Option Nat
deriving DecidableEq, Repr

/-- `UserInkAssignmentWithDetails` response shape. -/
structure UserInkAssignmentWithDetails where
  id : Nat
  user_id : Nat
  user_username : String
  ink_type_id : Nat
  ink_type_name : String
  ink_type_unit : String
  max_quantity_per_request : Int
  created_at : Nat
deriving DecidableEq, Repr

/-- `getInkRequestById`: select the request by id inner-joined with
`users` and `ink_types`; `null` when the select returns no row, else the
enriched record with the reviewer's username resolved by a follow-up
lookup when `reviewed_by_admin_id` is set.  A read: never throws, never
writes. -/
def getInkRequestById (st : DBState) (requestId : Nat) :
    Option InkRequestWithDetails :=
  match st.findRequest requestId with
  | none => none
  | some r =>
    match st.users.find? (fun u => u.id == r.user_id),
          st.ink_types.find? (fun t => t.id == r.ink_type_id) with
    | some u, some t =>
      some { id := r.id
             user_id := r.user_id
             user_username := u.username
             user_email := u.email
             ink_type_id := r.ink_type_id
             ink_type_name := t.name
             ink_type_unit := t.unit
             requested_quantity := r.requested_quantity
             approved_quantity := r.approved_quantity
             status := r.status
             request_reason := r.request_reason
             admin_notes := r.admin_notes
             reviewed_by_admin_id := r.reviewed_by_admin_id
             reviewed_by_admin_username :=
               match r.reviewed_by_admin_id with
               | none => none
               | some aid =>
                 (st.users.find? (fun u2 => u2.id == aid)).map
                   (fun u2 => u2.username)
             requested_at := r.requested_at
             reviewed_at := r.reviewed_at }
    | _, _ => none

/-- The row inserted by `createInkRequest`: explicit `status: 'pending'`,
all review columns at their `null` defaults. -/
def mkPendingRequest (st : DBState) (userId : Nat)
    (input : CreateInkRequestInput) (now : Nat) : InkRequest :=
  { id := st.next_request_id
    user_id := userId
    ink_type_id := input.ink_type_id
    requested_quantity := input.requested_quantity
    approved_quantity := none
    status := .pending
    request_reason := input.request_reason
    admin_notes := none
    reviewed_by_admin_id := none
    requested_at := now
    reviewed_at := none }

/-- The `db.insert(inkRequestsTable)` statement: appends the row and
advances the serial counter. -/
def DBState.insertRequest (st : DBState) (r : InkRequest) : DBState :=
  { st with ink_requests := st.ink_requests ++ [r]
            next_request_id := st.next_request_id + 1 }

/-- `createInkRequest(userId, input)`: assignment lookup for the
(user, ink type) pair, quota check against
`max_quantity_per_request`, insert of the pending row, then the enriched
re-read.  The second component is the store after the call. -/
def createInkRequest (st : DBState) (userId : Nat)
    (input : CreateInkRequestInput) (now : Nat) :
    Except HandlerError (Option InkRequestWithDetails) × DBState :=
  match st.findAssignment userId input.ink_type_id with
  | none => (.error .notAssigned, st)
  | some assignment =>
    if input.requested_quantity > assignment.max_quantity_per_request then
      (.error .quotaExceeded, st)
    else
      let newRequest := mkPendingRequest st userId input now
      let st1 := st.insertRequest newRequest
      (.ok (getInkRequestById st1 newRequest.id), st1)

/-- The `db.update(inkStockTable).set({current_stock, updated_at})
.where(eq(ink_type_id, tid))` statement of `reviewInkRequest`. -/
def DBState.updateStock (st : DBState) (tid : Nat) (newStock : Int)
    (now : Nat) : DBState :=
  { st with ink_stock := st.ink_stock.map (fun s =>
      if s.ink_type_id == tid then
        { s with current_stock := newStock, updated_at := now }
      else s) }

/-- The `db.update(inkRequestsTable).set({status, approved_quantity,
admin_notes, reviewed_by_admin_id, reviewed_at}).where(eq(id, rid))`
statement of `reviewInkRequest`. -/
def DBState.updateRequestReview (st : DBState) (rid : Nat)
    (d : ReviewDecision) (aq : Option Int) (notes : Option String)
    (adminId : Nat) (now : Nat) : DBState :=
  { st with ink_requests := st.ink_requests.map (fun r =>
      if r.id == rid then
        { r with status := d.toStatus
                 approved_quantity := aq
                 admin_notes := notes
                 reviewed_by_admin_id := some adminId
                 reviewed_at := some now }
      else r) }

/-- The approval-only part of `reviewInkRequest` (the
`if (input.status === 'approved')` block): resolves the effective
approved quantity (`input.approved_quantity !== undefined ?
input.approved_quantity : existingRequest.requested_quantity`), checks
it against current stock, and performs the stock decrement; yields the
`approvedQuantity` value that the request update will store (`null` for
a rejection). -/
def reviewApproveStep (st : DBState) (existingRequest : InkRequest)
    (input : ReviewInkRequestInput) (now : Nat) :
    Except HandlerError (Option Int × DBState) :=
  match input.status with
  | .rejected => .ok (none, st)
  | .approved =>
    match st.findStock existingRequest.ink_type_id with
    | none => .error .noStockInfo
    | some stockInfo =>
      let approvedQuantity :=
        input.approved_quantity.getD existingRequest.requested_quantity
      if approvedQuantity > stockInfo.current_stock then
        .error .insufficientStock
      else
        .ok (some approvedQuantity,
             st.updateStock existingRequest.ink_type_id
               (stockInfo.current_stock - approvedQuantity) now)

/-- `reviewInkRequest(adminId, input)`: fetch the request (NotFound when
absent), reject non-pending requests (AlreadyReviewed), run the approval
block when approving, then update the request row and return the
enriched re-read. -/
def reviewInkRequest (st : DBState) (adminId : Nat)
    (input : ReviewInkRequestInput) (now : Nat) :
    Except HandlerError (Option InkRequestWithDetails) × DBState :=
  match st.findRequest input.request_id with
  | none => (.error .requestNotFound, st)
  | some existingRequest =>
    if existingRequest.status = .pending then
      match reviewApproveStep st existingRequest input now with
      | .error e => (.error e, st)
      | .ok (approvedQuantity, st1) =>
        let st2 := st1.updateRequestReview input.request_id input.status
          approvedQuantity input.admin_notes adminId now
        (.ok (getInkRequestById st2 input.request_id), st2)
    else
      (.error .alreadyReviewed, st)

/-- The enriched assignment select (assignment by id inner-joined with
`users` and `ink_types`). -/
def getAssignmentWithDetails (st : DBState) (assignmentId : Nat) :
    Option UserInkAssignmentWithDetails :=
  match st.findAssignmentById assignmentId with
  | none => none
  | some a =>
    match st.users.find? (fun u => u.id == a.user_id),
          st.ink_types.find? (fun t => t.id == a.ink_type_id) with
    | some u, some t =>
      some { id := a.id
             user_id := a.user_id
             user_username := u.username
             ink_type_id := a.ink_type_id
             ink_type_name := t.name
             ink_type_unit := t.unit
             max_quantity_per_request := a.max_quantity_per_request
             created_at := a.created_at }
    | _, _ => none

/-- `createUserInkAssignment(input)`: verify the user and ink type
exist, fail on a duplicate (user, ink type) assignment, insert, and
return the enriched row. -/
def createUserInkAssignment (st : DBState)
    (input : CreateUserInkAssignmentInput) (now : Nat) :
    Except HandlerError (Option UserInkAssignmentWithDetails) × DBState :=
  match st.findUser input.user_id with
  | none => (.error (.userNotFound input.user_id), st)
  | some _ =>
    match st.findInkType input.ink_type_id with
    | none => (.error (.inkTypeNotFound input.ink_type_id), st)
    | some _ =>
      match st.findAssignment input.user_id input.ink_type_id with
      | some _ =>
        (.error (.assignmentConflict input.user_id input.ink_type_id), st)
      | none =>
        let a : UserInkAssignment :=
          { id := st.next_assignment_id
            user_id := input.user_id
            ink_type_id := input.ink_type_id
            max_quantity_per_request := input.max_quantity_per_request
            created_at := now }
        let st1 : DBState :=
          { st with
              user_ink_assignments := st.user_ink_assignments ++ [a]
              next_assignment_id := st.next_assignment_id + 1 }
        (.ok (getAssignmentWithDetails st1 a.id), st1)

/-- `removeUserInkAssignment(assignmentId)`: existence check then
delete; the boolean is `rowCount > 0`. -/
def removeUserInkAssignment (st : DBState) (assignmentId : Nat) :
    Except HandlerError Bool × DBState :=
  match st.findAssignmentById assignmentId with
  | none => (.error (.assignmentNotFound assignmentId), st)
  | some _ =>
    let remaining :=
      st.user_ink_assignments.filter (fun a => !(a.id == assignmentId))
    let rowCount := st.user_ink_assignments.length - remaining.length
    (.ok (decide (0 < rowCount)),
     { st with user_ink_assignments := remaining })

/-- `updateUserInkAssignment(assignmentId, maxQuantity)`: existence
check, update of `max_quantity_per_request`, enriched re-read. -/
def updateUserInkAssignment (st : DBState) (assignmentId : Nat)
    (maxQuantity : Int) :
    Except HandlerError (Option UserInkAssignmentWithDetails) × DBState :=
  match st.findAssignmentById assignmentId with
  | none => (.error (.assignmentNotFound assignmentId), st)
  | some _ =>
    let updated := st.user_ink_assignments.map (fun a =>
      if a.id == assignmentId then
        { a with max_quantity_per_request := maxQuantity }
      else a)
    let st1 : DBState := { st with user_ink_assignments := updated }
    (.ok (getAssignmentWithDetails st1 assignmentId), st1)

/-- The effective approved quantity of a review: the caller-supplied
value when present (including an explicit zero), else the request's
originally requested quantity. -/
def effectiveApproved (input : ReviewInkRequestInput)
    (r : InkRequest) : Int :=
  input.approved_quantity.getD r.requested_quantity

/-- At most one assignment row per (user, ink type) pair. -/
def assignmentPairUnique (st : DBState) : Prop :=
  st.user_ink_assignments.Pairwise
    (fun a b => ¬(a.user_id = b.user_id ∧ a.ink_type_id = b.ink_type_id))

/-! ### Generic list lemmas about `UPDATE ... WHERE` row maps -/

theorem head_filter_map {α : Type} (p : α → Bool) (f : α → α)
    (hf : ∀ a, p (f a) = p a) (l : List α) :
    ((l.map (fun a => if p a then f a else a)).filter p).head? =
      ((l.filter p).head?).map f := by
  induction l with
  | nil => rfl
  | cons a t ih =>
    by_cases h : p a
    · simp [List.filter_cons, h, hf a]
    · simp [List.filter_cons, h, ih]

theorem filter_map_untouched {α : Type} (q : α → Bool) (g : α → α)
    (h1 : ∀ a, q (g a) = q a) (h2 : ∀ a, q a = true → g a = a)
    (l : List α) :
    (l.map g).filter q = l.filter q := by
  induction l with
  | nil => rfl
  | cons a t ih =>
    by_cases h : q a
    · rw [List.map_cons, List.filter_cons_of_pos (by rw [h1 a]; exact h),
          List.filter_cons_of_pos h, h2 a h, ih]
    · rw [List.map_cons,
          List.filter_cons_of_neg (by rw [h1 a]; simpa using h),
          List.filter_cons_of_neg h, ih]

/-! ### Effects of the two UPDATE statements of `reviewInkRequest` -/

theorem findStock_updateStock (st : DBState) (tid : Nat) (v : Int)
    (now : Nat) :
    (st.updateStock tid v now).findStock tid =
      (st.findStock tid).map
        (fun s => { s with current_stock := v, updated_at := now }) := by
  simp only [DBState.updateStock, DBState.findStock]
  exact head_filter_map (fun s => s.ink_type_id == tid)
    (fun s => { s with current_stock := v, updated_at := now })
    (fun a => rfl) st.ink_stock

theorem findRequest_updateRequestReview (st : DBState) (rid : Nat)
    (d : ReviewDecision) (aq : Option Int) (notes : Option String)
    (adminId : Nat) (now : Nat) :
    (st.updateRequestReview rid d aq notes adminId now).findRequest rid =
      (st.findRequest rid).map
        (fun r => { r with status := d.toStatus
                           approved_quantity := aq
                           admin_notes := notes
                           reviewed_by_admin_id := some adminId
                           reviewed_at := some now }) := by
  simp only [DBState.updateRequestReview, DBState.findRequest]
  exact head_filter_map (fun r => r.id == rid)
    (fun r => { r with status := d.toStatus
                       approved_quantity := aq
                       admin_notes := notes
                       reviewed_by_admin_id := some adminId
                       reviewed_at := some now })
    (fun a => rfl) st.ink_requests

theorem findRequest_updateRequestReview_other (st : DBState)
    (rid rid2 : Nat) (d : ReviewDecision) (aq : Option Int)
    (notes : Option String) (adminId : Nat) (now : Nat)
    (hne : rid2 ≠ rid) :
    (st.updateRequestReview rid d aq notes adminId now).findRequest rid2 =
      st.findRequest rid2 := by
  simp only [DBState.updateRequestReview, DBState.findRequest]
  rw [filter_map_untouched]
  · intro a
    by_cases h : a.id == rid <;> simp [h]
  · intro a ha
    have : a.id = rid2 := by simpa using ha
    simp [this, hne]

/-! ### Branch characterizations of `reviewInkRequest` -/

/-- Helper: the final store of a successful approval. -/
def approvalFinalState (st : DBState) (adminId : Nat)
    (input : ReviewInkRequestInput) (now : Nat) (r : InkRequest)
    (s : InkStock) : DBState :=
  (st.updateStock r.ink_type_id
      (s.current_stock - effectiveApproved input r) now).updateRequestReview
    input.request_id input.status (some (effectiveApproved input r))
    input.admin_notes adminId now

theorem reviewInkRequest_approved_eq (st : DBState) (adminId : Nat)
    (input : ReviewInkRequestInput) (now : Nat) (r : InkRequest)
    (s : InkStock)
    (hr : st.findRequest input.request_id = some r)
    (hp : r.status = RequestStatus.pending)
    (hd : input.status = ReviewDecision.approved)
    (hs : st.findStock r.ink_type_id = some s)
    (hq : effectiveApproved input r ≤ s.current_stock) :
    reviewInkRequest st adminId input now =
      (Except.ok (getInkRequestById
          (approvalFinalState st adminId input now r s) input.request_id),
       approvalFinalState st adminId input now r s) := by
  have hnot : ¬ (input.approved_quantity.getD r.requested_quantity >
      s.current_stock) := not_lt.mpr hq
  simp [reviewInkRequest, reviewApproveStep, approvalFinalState,
    effectiveApproved, hr, hd, hs, hp, hnot]

/-! ### Concrete fixture store used by the witnesses -/

def userAlice : User :=
  { id := 1, username := "alice", email := "alice@example.com",
    password_hash := "h1", role := .user, created_at := 0, updated_at := 0 }

def adminBob : User :=
  { id := 2, username := "bob", email := "bob@example.com",
    password_hash := "h2", role := .admin, created_at := 0, updated_at := 0 }

def blackInk : InkType :=
  { id := 1, name := "Black Ink",
    description := some "Standard black printing ink", unit := "botol",
    created_at := 0, updated_at := 0 }

def blackStock : InkStock :=
  { id := 1, ink_type_id := 1, current_stock := 50, minimum_stock := 10,
    updated_at := 0 }

def aliceAssignment : UserInkAssignment :=
  { id := 1, user_id := 1, ink_type_id := 1,
    max_quantity_per_request := 10, created_at := 0 }

def pendingReq : InkRequest :=
  { id := 1, user_id := 1, ink_type_id := 1, requested_quantity := 5,
    approved_quantity := none, status := .pending,
    request_reason := some "printing", admin_notes := none,
    reviewed_by_admin_id := none, requested_at := 1, reviewed_at := none }

def baseState : DBState :=
  { users := [userAlice, adminBob], ink_types := [blackInk],
    ink_stock := [blackStock], user_ink_assignments := [aliceAssignment],
    ink_requests := [pendingReq], next_request_id := 2,
    next_assignment_id := 2 }

/-- `baseState` with only 2 units in stock (Scenario C of the spec). -/
def lowStockState : DBState :=
  { baseState with ink_stock := [{ blackStock with current_stock := 2 }] }

/-! ### Claim theorems -/

/-- C1: a Review call with decision approved on an existing pending
request whose supply type has a stock record, where the effective
approved quantity (the caller-supplied `approved_quantity` when present,
including zero, else the request's `requested_quantity`) is at most the
current stock, succeeds; the resulting current stock equals the prior
stock minus the effective approved quantity, and the stored request has
status approved and `approved_quantity` equal to the effective approved
quantity. -/
theorem review_approved_decrements_stock (st : DBState) (adminId : Nat)
    (input : ReviewInkRequestInput) (now : Nat) (r : InkRequest)
    (s : InkStock)
    (hr : st.findRequest input.request_id = some r)
    (hp : r.status = RequestStatus.pending)
    (hd : input.status = ReviewDecision.approved)
    (hs : st.findStock r.ink_type_id = some s)
    (hq : effectiveApproved input r ≤ s.current_stock) :
    ∃ out st2,
      reviewInkRequest st adminId input now = (Except.ok out, st2) ∧
      st2.findStock r.ink_type_id =
        some { s with
                 current_stock := s.current_stock - effectiveApproved input r
                 updated_at := now } ∧
      st2.findRequest input.request_id =
        some { r with
                 status := RequestStatus.approved
                 approved_quantity := some (effectiveApproved input r)
                 admin_notes := input.admin_notes
                 reviewed_by_admin_id := some adminId
                 reviewed_at := some now } := by
  refine ⟨_, _,
    reviewInkRequest_approved_eq st adminId input now r s hr hp hd hs hq,
    ?_, ?_⟩
  · show (st.updateStock r.ink_type_id
        (s.current_stock - effectiveApproved input r) now).findStock
        r.ink_type_id = _
    rw [findStock_updateStock, hs]
    rfl
  · unfold approvalFinalState
    rw [findRequest_updateRequestReview]
    have h3 : (st.updateStock r.ink_type_id
        (s.current_stock - effectiveApproved input r) now).findRequest
        input.request_id = st.findRequest input.request_id := rfl
    rw [h3, hr, hd]
    rfl

/-- Witness for C1 at a concrete store: an explicit approved quantity of
zero (the caller-supplied-zero reading of the three-state input) is
accepted and the stock is decremented by zero. -/
theorem review_approved_decrements_stock_witness :
    (baseState.findRequest 1 = some pendingReq ∧
     pendingReq.status = RequestStatus.pending ∧
     baseState.findStock 1 = some blackStock ∧
     effectiveApproved
       { request_id := 1, status := .approved,
         approved_quantity := some 0, admin_notes := none } pendingReq ≤
       blackStock.current_stock) ∧
    ∃ out st2,
      reviewInkRequest baseState 2
        { request_id := 1, status := .approved,
          approved_quantity := some 0, admin_notes := none } 10 =
        (Except.ok out, st2) ∧
      st2.findStock 1 =
        some { blackStock with
                 current_stock := blackStock.current_stock - 0
                 updated_at := 10 } ∧
      st2.findRequest 1 =
        some { pendingReq with
                 status := RequestStatus.approved
                 approved_quantity := some 0
                 admin_notes := none
                 reviewed_by_admin_id := some 2
                 reviewed_at := some 10 } :=
  ⟨⟨rfl, rfl, rfl, by decide⟩,
   review_approved_decrements_stock baseState 2
     { request_id := 1, status := .approved, approved_quantity := some 0,
       admin_notes := none } 10 pendingReq blackStock rfl rfl rfl rfl
     (by decide)⟩

/-- C2: a Review call with decision approved on an existing pending
request whose supply type has a stock record, where the effective
approved quantity strictly exceeds current stock, fails with
InsufficientStock and returns the store unchanged: the stock record is
not decremented, and the request row keeps its pending status, null
approved quantity, and empty review columns. -/
theorem review_approved_insufficient_stock (st : DBState) (adminId : Nat)
    (input : ReviewInkRequestInput) (now : Nat) (r : InkRequest)
    (s : InkStock)
    (hr : st.findRequest input.request_id = some r)
    (hp : r.status = RequestStatus.pending)
    (hd : input.status = ReviewDecision.approved)
    (hs : st.findStock r.ink_type_id = some s)
    (hq : s.current_stock < effectiveApproved input r) :
    reviewInkRequest st adminId input now =
      (Except.error HandlerError.insufficientStock, st) := by
  have hgt : input.approved_quantity.getD r.requested_quantity >
      s.current_stock := hq
  simp [reviewInkRequest, reviewApproveStep, hr, hd, hs, hp, hgt]

/-- Witness for C2, Scenario C of the spec: stock 2, requested quantity
5, approval with the quantity omitted fails with InsufficientStock and
the store (hence the stock of 2) stays as it was. -/
theorem review_approved_insufficient_stock_witness :
    (lowStockState.findRequest 1 = some pendingReq ∧
     pendingReq.status = RequestStatus.pending ∧
     lowStockState.findStock 1 =
       some { blackStock with current_stock := 2 } ∧
     ({ blackStock with current_stock := 2 } : InkStock).current_stock <
       effectiveApproved
         { request_id := 1, status := .approved,
           approved_quantity := none, admin_notes := none } pendingReq) ∧
    reviewInkRequest lowStockState 2
      { request_id := 1, status := .approved, approved_quantity := none,
        admin_notes := none } 10 =
      (Except.error HandlerError.insufficientStock, lowStockState) :=
  ⟨⟨rfl, rfl, rfl, by decide⟩,
   review_approved_insufficient_stock lowStockState 2
     { request_id := 1, status := .approved, approved_quantity := none,
       admin_notes := none } 10 pendingReq
     { blackStock with current_stock := 2 } rfl rfl rfl rfl (by decide)⟩

/-- C3: a Review call on an existing request whose status is not
pending fails with AlreadyReviewed, whatever the new decision is, and
returns the store unchanged, so the stored request keeps the status,
approved quantity, reviewer, and review timestamp written by the first
review, and stock is untouched. -/
theorem review_non_pending_already_reviewed (st : DBState)
    (adminId : Nat) (input : ReviewInkRequestInput) (now : Nat)
    (r : InkRequest)
    (hr : st.findRequest input.request_id = some r)
    (hp : r.status ≠ RequestStatus.pending) :
    reviewInkRequest st adminId input now =
      (Except.error HandlerError.alreadyReviewed, st) := by
  simp [reviewInkRequest, hr, hp]

/-- The store after the first (approving) review of Scenario F. -/
def stateAfterFirstReview : DBState :=
  (reviewInkRequest baseState 2
    { request_id := 1, status := .approved, approved_quantity := none,
      admin_notes := some "ok" } 10).2

/-- The request row as stored by that first review. -/
def reqAfterFirstReview : InkRequest :=
  { pendingReq with
      status := .approved
      approved_quantity := some 5
      admin_notes := some "ok"
      reviewed_by_admin_id := some 2
      reviewed_at := some 10 }

/-- Witness for C3, Scenario F of the spec: after a first approving
review, a second Review with decision rejected fails with
AlreadyReviewed and the store produced by the first review is kept, its
stored status still approved. -/
theorem review_non_pending_already_reviewed_witness :
    (stateAfterFirstReview.findRequest 1 = some reqAfterFirstReview ∧
     reqAfterFirstReview.status ≠ RequestStatus.pending ∧
     reqAfterFirstReview.status = RequestStatus.approved) ∧
    reviewInkRequest stateAfterFirstReview 2
      { request_id := 1, status := .rejected, approved_quantity := none,
        admin_notes := some "changed my mind" } 20 =
      (Except.error HandlerError.alreadyReviewed, stateAfterFirstReview) :=
  ⟨⟨rfl, by decide, rfl⟩,
   review_non_pending_already_reviewed stateAfterFirstReview 2
     { request_id := 1, status := .rejected, approved_quantity := none,
       admin_notes := some "changed my mind" } 20 reqAfterFirstReview
     rfl (by decide)⟩

/-- C4: a Review call with decision rejected on an existing pending
request succeeds without touching any stock record (no stock hypothesis
is needed: the store may have no stock row for the supply type), stores
a null `approved_quantity` regardless of any caller-supplied value, and
rewrites only the request's status, admin notes, reviewer, and review
timestamp; every other table and every other request row is unchanged. -/
theorem review_rejected_frame (st : DBState) (adminId : Nat)
    (input : ReviewInkRequestInput) (now : Nat) (r : InkRequest)
    (hr : st.findRequest input.request_id = some r)
    (hp : r.status = RequestStatus.pending)
    (hd : input.status = ReviewDecision.rejected) :
    ∃ out st2,
      reviewInkRequest st adminId input now = (Except.ok out, st2) ∧
      st2.ink_stock = st.ink_stock ∧
      st2.users = st.users ∧
      st2.ink_types = st.ink_types ∧
      st2.user_ink_assignments = st.user_ink_assignments ∧
      st2.findRequest input.request_id =
        some { r with
                 status := RequestStatus.rejected
                 approved_quantity := none
                 admin_notes := input.admin_notes
                 reviewed_by_admin_id := some adminId
                 reviewed_at := some now } ∧
      (∀ rid, rid ≠ input.request_id →
        st2.findRequest rid = st.findRequest rid) := by
  have heq : reviewInkRequest st adminId input now =
      (Except.ok (getInkRequestById
        (st.updateRequestReview input.request_id input.status none
          input.admin_notes adminId now) input.request_id),
       st.updateRequestReview input.request_id input.status none
         input.admin_notes adminId now) := by
    simp [reviewInkRequest, reviewApproveStep, hr, hd, hp]
  refine ⟨_, _, heq, rfl, rfl, rfl, rfl, ?_, ?_⟩
  · rw [findRequest_updateRequestReview, hr, hd]
    rfl
  · intro rid hrid
    exact findRequest_updateRequestReview_other st input.request_id rid
      input.status none input.admin_notes adminId now hrid

/-- Witness for C4: a rejection that even carries an (ignored) explicit
`approved_quantity` of 4 succeeds on a store whose stock it provably
leaves alone, and stores a null approved quantity. -/
theorem review_rejected_frame_witness :
    (baseState.findRequest 1 = some pendingReq ∧
     pendingReq.status = RequestStatus.pending) ∧
    ∃ out st2,
      reviewInkRequest baseState 2
        { request_id := 1, status := .rejected,
          approved_quantity := some 4, admin_notes := some "no" } 10 =
        (Except.ok out, st2) ∧
      st2.ink_stock = baseState.ink_stock ∧
      st2.users = baseState.users ∧
      st2.ink_types = baseState.ink_types ∧
      st2.user_ink_assignments = baseState.user_ink_assignments ∧
      st2.findRequest 1 =
        some { pendingReq with
                 status := RequestStatus.rejected
                 approved_quantity := none
                 admin_notes := some "no"
                 reviewed_by_admin_id := some 2
                 reviewed_at := some 10 } ∧
      (∀ rid, rid ≠ 1 →
        st2.findRequest rid = baseState.findRequest rid) :=
  ⟨⟨rfl, rfl⟩,
   review_rejected_frame baseState 2
     { request_id := 1, status := .rejected, approved_quantity := some 4,
       admin_notes := some "no" } 10 pendingReq rfl rfl rfl⟩

/-- C5: when an assignment exists for the (user, ink type) pair, a
Submit call fails with QuotaExceeded exactly when the requested
quantity strictly exceeds the assignment's `max_quantity_per_request`;
on that failure the store is returned unchanged (no request row), and a
request for at most the maximum (in particular exactly the maximum)
goes through and appends its pending row. -/
theorem submit_quota_check (st : DBState) (userId : Nat)
    (input : CreateInkRequestInput) (now : Nat) (a : UserInkAssignment)
    (ha : st.findAssignment userId input.ink_type_id = some a) :
    (a.max_quantity_per_request < input.requested_quantity →
       createInkRequest st userId input now =
         (Except.error HandlerError.quotaExceeded, st)) ∧
    (input.requested_quantity ≤ a.max_quantity_per_request →
       ∃ out st1,
         createInkRequest st userId input now = (Except.ok out, st1) ∧
         st1.ink_requests =
           st.ink_requests ++ [mkPendingRequest st userId input now]) := by
  constructor
  · intro hgt
    simp [createInkRequest, ha, hgt]
  · intro hle
    have hngt : ¬ input.requested_quantity > a.max_quantity_per_request :=
      not_lt.mpr hle
    have heq : createInkRequest st userId input now =
        (Except.ok (getInkRequestById
          (st.insertRequest (mkPendingRequest st userId input now))
          (mkPendingRequest st userId input now).id),
         st.insertRequest (mkPendingRequest st userId input now)) := by
      simp [createInkRequest, ha, hngt]
    exact ⟨_, _, heq, rfl⟩

/-- Witness for C5: against the cap of 10, a request for 15 fails with
QuotaExceeded leaving the store unchanged, while a request for exactly
10 succeeds and appends its pending row. -/
theorem submit_quota_check_witness :
    (baseState.findAssignment 1 1 = some aliceAssignment ∧
     aliceAssignment.max_quantity_per_request < 15 ∧
     (10 : Int) ≤ aliceAssignment.max_quantity_per_request) ∧
    createInkRequest baseState 1
      { ink_type_id := 1, requested_quantity := 15,
        request_reason := some "big job" } 3 =
      (Except.error HandlerError.quotaExceeded, baseState) ∧
    ∃ out st1,
      createInkRequest baseState 1
        { ink_type_id := 1, requested_quantity := 10,
          request_reason := some "full quota" } 3 =
        (Except.ok out, st1) ∧
      st1.ink_requests = baseState.ink_requests ++
        [mkPendingRequest baseState 1
          { ink_type_id := 1, requested_quantity := 10,
            request_reason := some "full quota" } 3] :=
  ⟨⟨rfl, by decide, by decide⟩,
   (submit_quota_check baseState 1
     { ink_type_id := 1, requested_quantity := 15,
       request_reason := some "big job" } 3 aliceAssignment rfl).1
     (by decide),
   (submit_quota_check baseState 1
     { ink_type_id := 1, requested_quantity := 10,
       request_reason := some "full quota" } 3 aliceAssignment rfl).2
     (by decide)⟩

/-- C6: a Submit call by a user with no assignment for the supply type
fails with PermissionDenied (the handler's "not assigned to request
this ink type" error) and returns the store unchanged: no request row
is created. -/
theorem submit_without_assignment_denied (st : DBState) (userId : Nat)
    (input : CreateInkRequestInput) (now : Nat)
    (ha : st.findAssignment userId input.ink_type_id = none) :
    createInkRequest st userId input now =
      (Except.error HandlerError.notAssigned, st) := by
  simp [createInkRequest, ha]

/-- Witness for C6: user 2 (the admin) has no assignment for ink type
1, so their Submit fails with the permission error and the store is
unchanged. -/
theorem submit_without_assignment_denied_witness :
    baseState.findAssignment 2 1 = none ∧
    createInkRequest baseState 2
      { ink_type_id := 1, requested_quantity := 1,
        request_reason := none } 3 =
      (Except.error HandlerError.notAssigned, baseState) :=
  ⟨rfl,
   submit_without_assignment_denied baseState 2
     { ink_type_id := 1, requested_quantity := 1,
       request_reason := none } 3 rfl⟩

/-- C7: every successful Submit appends exactly one new request row,
whose fields are status pending, null approved quantity, null reviewer,
null review timestamp, null admin notes, and the caller's user id, ink
type id, requested quantity, and reason; the other four tables are
untouched. -/
theorem submit_success_single_pending_row (st : DBState) (userId : Nat)
    (input : CreateInkRequestInput) (now : Nat)
    (res : Option InkRequestWithDetails) (st1 : DBState)
    (h : createInkRequest st userId input now = (Except.ok res, st1)) :
    st1.ink_requests =
      st.ink_requests ++ [mkPendingRequest st userId input now] ∧
    (mkPendingRequest st userId input now).status =
      RequestStatus.pending ∧
    (mkPendingRequest st userId input now).approved_quantity = none ∧
    (mkPendingRequest st userId input now).reviewed_by_admin_id = none ∧
    (mkPendingRequest st userId input now).reviewed_at = none ∧
    (mkPendingRequest st userId input now).admin_notes = none ∧
    (mkPendingRequest st userId input now).user_id = userId ∧
    (mkPendingRequest st userId input now).ink_type_id =
      input.ink_type_id ∧
    (mkPendingRequest st userId input now).requested_quantity =
      input.requested_quantity ∧
    (mkPendingRequest st userId input now).request_reason =
      input.request_reason ∧
    st1.users = st.users ∧
    st1.ink_types = st.ink_types ∧
    st1.ink_stock = st.ink_stock ∧
    st1.user_ink_assignments = st.user_ink_assignments := by
  unfold createInkRequest at h
  cases hfa : st.findAssignment userId input.ink_type_id with
  | none =>
    rw [hfa] at h
    simp at h
  | some a =>
    rw [hfa] at h
    by_cases hgt : input.requested_quantity > a.max_quantity_per_request
    · simp [hgt] at h
    · simp only [hgt, if_false, Prod.mk.injEq] at h
      obtain ⟨-, h2⟩ := h
      subst h2
      exact ⟨rfl, rfl, rfl, rfl, rfl, rfl, rfl, rfl, rfl, rfl, rfl, rfl,
        rfl, rfl⟩

/-- Witness for C7: the concrete Submit of 5 units appends exactly the
pending row and modifies nothing else. -/
theorem submit_success_single_pending_row_witness :
    (createInkRequest baseState 1
       { ink_type_id := 1, requested_quantity := 5,
         request_reason := some "need" } 3 =
     (Except.ok (getInkRequestById
        (baseState.insertRequest (mkPendingRequest baseState 1
          { ink_type_id := 1, requested_quantity := 5,
            request_reason := some "need" } 3)) 2),
      baseState.insertRequest (mkPendingRequest baseState 1
        { ink_type_id := 1, requested_quantity := 5,
          request_reason := some "need" } 3))) ∧
    (baseState.insertRequest (mkPendingRequest baseState 1
        { ink_type_id := 1, requested_quantity := 5,
          request_reason := some "need" } 3)).ink_requests =
      baseState.ink_requests ++ [mkPendingRequest baseState 1
        { ink_type_id := 1, requested_quantity := 5,
          request_reason := some "need" } 3] :=
  ⟨rfl,
   (submit_success_single_pending_row baseState 1
     { ink_type_id := 1, requested_quantity := 5,
       request_reason := some "need" } 3 _ _ rfl).1⟩

/-- The approval block never touches the assignments table. -/
theorem reviewApproveStep_assignments (st : DBState) (r : InkRequest)
    (input : ReviewInkRequestInput) (now : Nat) (aq : Option Int)
    (st1 : DBState)
    (h : reviewApproveStep st r input now = Except.ok (aq, st1)) :
    st1.user_ink_assignments = st.user_ink_assignments := by
  unfold reviewApproveStep at h
  cases hd : input.status with
  | rejected =>
    rw [hd] at h
    simp only [Except.ok.injEq, Prod.mk.injEq] at h
    obtain ⟨-, h2⟩ := h
    subst h2
    rfl
  | approved =>
    rw [hd] at h
    cases hs : st.findStock r.ink_type_id with
    | none => rw [hs] at h; simp at h
    | some s =>
      rw [hs] at h
      by_cases hgt : input.approved_quantity.getD r.requested_quantity >
          s.current_stock
      · simp [hgt] at h
      · simp only [hgt, if_false, Except.ok.injEq, Prod.mk.injEq] at h
        obtain ⟨-, h2⟩ := h
        subst h2
        rfl

/-- C8: with the referenced user and ink type existing, a Grant for a
(user, ink type) pair that already has an assignment fails with the
conflict error and returns the store unchanged (the original assignment
row untouched, no second row); moreover every operation of the service
preserves the invariant of at most one assignment per pair — Grant,
Revoke, and UpdateMax preserve `assignmentPairUnique`, and Submit and
Review never modify the assignments table at all. -/
theorem grant_conflict_and_pair_uniqueness (st : DBState)
    (input : CreateUserInkAssignmentInput) (now : Nat) :
    ((∃ u, st.findUser input.user_id = some u) →
     (∃ t, st.findInkType input.ink_type_id = some t) →
     (∃ a, st.findAssignment input.user_id input.ink_type_id = some a) →
       createUserInkAssignment st input now =
         (Except.error
           (HandlerError.assignmentConflict input.user_id
             input.ink_type_id), st)) ∧
    (assignmentPairUnique st →
       assignmentPairUnique (createUserInkAssignment st input now).2) ∧
    (∀ aid, assignmentPairUnique st →
       assignmentPairUnique (removeUserInkAssignment st aid).2) ∧
    (∀ aid m, assignmentPairUnique st →
       assignmentPairUnique (updateUserInkAssignment st aid m).2) ∧
    (∀ uid inp now2,
       (createInkRequest st uid inp now2).2.user_ink_assignments =
         st.user_ink_assignments) ∧
    (∀ adm inp now2,
       (reviewInkRequest st adm inp now2).2.user_ink_assignments =
         st.user_ink_assignments) := by
  refine ⟨?_, ?_, ?_, ?_, ?_, ?_⟩
  · rintro ⟨u, hu⟩ ⟨t, ht⟩ ⟨a, ha⟩
    simp [createUserInkAssignment, hu, ht, ha]
  · intro hinv
    cases hu : st.findUser input.user_id with
    | none => simpa [createUserInkAssignment, hu] using hinv
    | some u =>
      cases ht : st.findInkType input.ink_type_id with
      | none => simpa [createUserInkAssignment, hu, ht] using hinv
      | some t =>
        cases ha : st.findAssignment input.user_id input.ink_type_id with
        | some a => simpa [createUserInkAssignment, hu, ht, ha] using hinv
        | none =>
          have hfilter : st.user_ink_assignments.filter
              (fun a => a.user_id == input.user_id &&
                a.ink_type_id == input.ink_type_id) = [] := by
            have h0 := ha
            unfold DBState.findAssignment at h0
            exact List.head?_eq_none_iff.mp h0
          simp only [createUserInkAssignment, hu, ht, ha]
          show List.Pairwise _ (st.user_ink_assignments ++ [_])
          rw [List.pairwise_append]
          refine ⟨hinv, List.pairwise_singleton _ _, ?_⟩
          intro x hx y hy
          rw [List.mem_singleton] at hy
          subst hy
          rintro ⟨h1, h2⟩

          have hxmem : x ∈ st.user_ink_assignments.filter
              (fun a => a.user_id == input.user_id &&
                a.ink_type_id == input.ink_type_id) := by
            refine List.mem_filter.mpr ⟨hx, ?_⟩
            simp only at h1 h2
            simp [h1, h2]
          rw [hfilter] at hxmem
          exact absurd hxmem (List.not_mem_nil x)
  · intro aid hinv
    cases hfa : st.findAssignmentById aid with
    | none =>
      simp only [removeUserInkAssignment, hfa]
      exact hinv
    | some a =>
      simp only [removeUserInkAssignment, hfa]
      exact List.Pairwise.filter _ hinv
  · intro aid m hinv
    cases hfa : st.findAssignmentById aid with
    | none =>
      simp only [updateUserInkAssignment, hfa]
      exact hinv
    | some a =>
      simp only [updateUserInkAssignment, hfa]
      show List.Pairwise _ (st.user_ink_assignments.map _)
      rw [List.pairwise_map]
      refine hinv.imp ?_
      intro x y hxy
      have hgu : ∀ z : UserInkAssignment,
          ((if z.id == aid then { z with max_quantity_per_request := m }
            else z) : UserInkAssignment).user_id = z.user_id := by
        intro z
        split <;> rfl
      have hgt : ∀ z : UserInkAssignment,
          ((if z.id == aid then { z with max_quantity_per_request := m }
            else z) : UserInkAssignment).ink_type_id = z.ink_type_id := by
        intro z
        split <;> rfl
      rw [hgu x, hgu y, hgt x, hgt y]
      exact hxy
  · intro uid inp now2
    cases hfa : st.findAssignment uid inp.ink_type_id with
    | none => simp [createInkRequest, hfa]
    | some a =>
      simp only [createInkRequest, hfa]
      split <;> rfl
  · intro adm inp now2
    cases hr : st.findRequest inp.request_id with
    | none => simp [reviewInkRequest, hr]
    | some r =>
      by_cases hp : r.status = RequestStatus.pending
      · simp only [reviewInkRequest, hr, hp, if_true]
        cases hstep : reviewApproveStep st r inp now2 with
        | error e => rfl
        | ok p =>
          obtain ⟨aq, st1⟩ := p
          have hkeep := reviewApproveStep_assignments st r inp now2 aq
            st1 hstep
          simpa [DBState.updateRequestReview] using hkeep
      · simp [reviewInkRequest, hr, hp]

/-- Witness for C8: the duplicate Grant for the already-assigned pair
(user 1, ink type 1) fails with the conflict error and leaves the store
unchanged, and the fixture store satisfies the one-per-pair invariant
that Grant preserves. -/
theorem grant_conflict_and_pair_uniqueness_witness :
    ((∃ u, baseState.findUser 1 = some u) ∧
     (∃ t, baseState.findInkType 1 = some t) ∧
     (∃ a, baseState.findAssignment 1 1 = some a) ∧
     assignmentPairUnique baseState) ∧
    createUserInkAssignment baseState
      { user_id := 1, ink_type_id := 1, max_quantity_per_request := 7 }
      4 =
      (Except.error (HandlerError.assignmentConflict 1 1), baseState) ∧
    assignmentPairUnique (createUserInkAssignment baseState
      { user_id := 1, ink_type_id := 1, max_quantity_per_request := 7 }
      4).2 := by
  have hinv : assignmentPairUnique baseState := by
    unfold assignmentPairUnique baseState
    simp
  refine ⟨⟨⟨userAlice, rfl⟩, ⟨blackInk, rfl⟩, ⟨aliceAssignment, rfl⟩,
    hinv⟩, ?_, ?_⟩
  · exact (grant_conflict_and_pair_uniqueness baseState
      { user_id := 1, ink_type_id := 1, max_quantity_per_request := 7 }
      4).1 ⟨userAlice, rfl⟩ ⟨blackInk, rfl⟩ ⟨aliceAssignment, rfl⟩
  · exact (grant_conflict_and_pair_uniqueness baseState
      { user_id := 1, ink_type_id := 1, max_quantity_per_request := 7 }
      4).2.1 hinv

/-- C9: the Lookup read returns null (not an error) when the request id
does not exist, while every write operation raises a hard failure on an
absent referent and returns the store unchanged: Review on an absent
request, Submit without an assignment, Grant for an absent user, and
Revoke/UpdateMax on an absent assignment id all produce errors. -/
theorem lookup_soft_writes_hard (st : DBState) :
    (∀ rid, st.findRequest rid = none →
       getInkRequestById st rid = none) ∧
    (∀ adminId input now, st.findRequest input.request_id = none →
       reviewInkRequest st adminId input now =
         (Except.error HandlerError.requestNotFound, st)) ∧
    (∀ userId input now,
       st.findAssignment userId input.ink_type_id = none →
       createInkRequest st userId input now =
         (Except.error HandlerError.notAssigned, st)) ∧
    (∀ input now, st.findUser input.user_id = none →
       createUserInkAssignment st input now =
         (Except.error (HandlerError.userNotFound input.user_id), st)) ∧
    (∀ aid, st.findAssignmentById aid = none →
       removeUserInkAssignment st aid =
         (Except.error (HandlerError.assignmentNotFound aid), st)) ∧
    (∀ aid m, st.findAssignmentById aid = none →
       updateUserInkAssignment st aid m =
         (Except.error (HandlerError.assignmentNotFound aid), st)) := by
  refine ⟨?_, ?_, ?_, ?_, ?_, ?_⟩
  · intro rid h
    simp [getInkRequestById, h]
  · intro adminId input now h
    simp [reviewInkRequest, h]
  · intro userId input now h
    simp [createInkRequest, h]
  · intro input now h
    simp [createUserInkAssignment, h]
  · intro aid h
    simp [removeUserInkAssignment, h]
  · intro aid m h
    simp [updateUserInkAssignment, h]

/-- Witness for C9: request id 99 is absent from the fixture store, so
the read returns null while Review on it throws NotFound; assignment id
99 is absent, so Revoke on it throws. -/
theorem lookup_soft_writes_hard_witness :
    (baseState.findRequest 99 = none ∧
     baseState.findAssignmentById 99 = none) ∧
    getInkRequestById baseState 99 = none ∧
    reviewInkRequest baseState 2
      { request_id := 99, status := .approved, approved_quantity := none,
        admin_notes := none } 10 =
      (Except.error HandlerError.requestNotFound, baseState) ∧
    removeUserInkAssignment baseState 99 =
      (Except.error (HandlerError.assignmentNotFound 99), baseState) :=
  ⟨⟨rfl, rfl⟩,
   (lookup_soft_writes_hard baseState).1 99 rfl,
   (lookup_soft_writes_hard baseState).2.1 2
     { request_id := 99, status := .approved, approved_quantity := none,
       admin_notes := none } 10 rfl,
   (lookup_soft_writes_hard baseState).2.2.2.2.1 99 rfl⟩

/-- C10: approval places no upper bound on the caller-supplied approved
quantity other than current stock: an explicit `approved_quantity`
strictly greater than the request's requested quantity and strictly
greater than the requester's assignment cap is accepted whenever it
does not exceed current stock, and stock is decremented by that larger
amount. -/
theorem review_approved_quantity_uncapped (st : DBState) (adminId : Nat)
    (input : ReviewInkRequestInput) (now : Nat) (r : InkRequest)
    (s : InkStock) (a : UserInkAssignment) (q : Int)
    (hr : st.findRequest input.request_id = some r)
    (hp : r.status = RequestStatus.pending)
    (hd : input.status = ReviewDecision.approved)
    (hs : st.findStock r.ink_type_id = some s)
    (ha : st.findAssignment r.user_id r.ink_type_id = some a)
    (hqa : input.approved_quantity = some q)
    (hgtreq : r.requested_quantity < q)
    (hgtcap : a.max_quantity_per_request < q)
    (hle : q ≤ s.current_stock) :
    ∃ out st2,
      reviewInkRequest st adminId input now = (Except.ok out, st2) ∧
      st2.findStock r.ink_type_id =
        some { s with current_stock := s.current_stock - q
                      updated_at := now } ∧
      st2.findRequest input.request_id =
        some { r with status := RequestStatus.approved
                      approved_quantity := some q
                      admin_notes := input.admin_notes
                      reviewed_by_admin_id := some adminId
                      reviewed_at := some now } := by
  have heff : effectiveApproved input r = q := by
    simp [effectiveApproved, hqa]
  have hq : effectiveApproved input r ≤ s.current_stock := heff ▸ hle
  refine ⟨_, _,
    reviewInkRequest_approved_eq st adminId input now r s hr hp hd hs hq,
    ?_, ?_⟩
  · show (st.updateStock r.ink_type_id
        (s.current_stock - effectiveApproved input r) now).findStock
        r.ink_type_id = _
    rw [findStock_updateStock, hs, heff]
    rfl
  · unfold approvalFinalState
    rw [findRequest_updateRequestReview]
    have h3 : (st.updateStock r.ink_type_id
        (s.current_stock - effectiveApproved input r) now).findRequest
        input.request_id = st.findRequest input.request_id := rfl
    rw [h3, hr, hd, heff]
    rfl

/-- Witness for C10: an explicit approved quantity of 12 on a request
for 5 with an assignment cap of 10 and stock 50 is accepted, dropping
stock to 38. -/
theorem review_approved_quantity_uncapped_witness :
    (baseState.findRequest 1 = some pendingReq ∧
     baseState.findStock 1 = some blackStock ∧
     baseState.findAssignment 1 1 = some aliceAssignment ∧
     pendingReq.requested_quantity < 12 ∧
     aliceAssignment.max_quantity_per_request < 12 ∧
     (12 : Int) ≤ blackStock.current_stock) ∧
    ∃ out st2,
      reviewInkRequest baseState 2
        { request_id := 1, status := .approved,
          approved_quantity := some 12, admin_notes := none } 10 =
        (Except.ok out, st2) ∧
      st2.findStock 1 =
        some { blackStock with
                 current_stock := blackStock.current_stock - 12
                 updated_at := 10 } ∧
      st2.findRequest 1 =
        some { pendingReq with
                 status := RequestStatus.approved
                 approved_quantity := some 12
                 admin_notes := none
                 reviewed_by_admin_id := some 2
                 reviewed_at := some 10 } :=
  ⟨⟨rfl, rfl, rfl, by decide, by decide, by decide⟩,
   review_approved_quantity_uncapped baseState 2
     { request_id := 1, status := .approved, approved_quantity := some 12,
       admin_notes := none } 10 pendingReq blackStock aliceAssignment 12
     rfl rfl rfl rfl rfl rfl (by decide) (by decide) (by decide)⟩

end InkManager
